import Mathlib

/-!
Verification of the SnapPy census-database layer (`snappy/database.py`): the
binary blob codec, the table slicing operations, the single-name census
lookup, and the `identify` matching protocol.  Python byte strings are
modelled as `List Nat`, SQL result sets as Lean lists in source row order,
and Python truthiness is made explicit at every branch that depends on it.
-/

set_option maxHeartbeats 1000000

namespace SnapPyDB

/-- `USE_COBS = 1 << 7`, the header bit marking a change-of-basis block. -/
def USE_COBS : Nat := 128

/-- `USE_STRING = 1 << 6`, the header bit marking a textual triangulation. -/
def USE_STRING : Nat := 64

/-- `CUSP_MASK = 0x3f`, the low six header bits holding the cusp count. -/
def CUSP_MASK : Nat := 0x3f

/-- The layout information `ManifoldTable._manifold_factory` extracts from a
triangulation blob: whether the body is textual, the byte range handed to the
external `decode_matrices`, and the byte range handed to the external
triangulation constructor (`_from_string` or `_from_bytes`). -/
structure Decoded where
  use_string : Bool
  cobsBytes : Option (List Nat)
  body : List Nat
deriving DecidableEq, Repr

/-- Blob layout of `ManifoldTable._manifold_factory` (database.py lines
209-228).  `buf[0]` is the header; `use_cobs = header & USE_COBS`,
`use_string = header & USE_STRING`, `num_cusps = header & CUSP_MASK`.
If `use_string` is set the body is `buf[1:]`; otherwise the body is
`buf[4*num_cusps + 1:]` and, when `use_cobs` is set, `buf[1:4*num_cusps+1]`
is handed to `decode_matrices`.  An empty blob raises `IndexError` at
`buf[0]`, modelled as `none`. -/
def manifold_factory_decode : List Nat → Option Decoded
  | [] => none
  | b0 :: rest =>
    let use_cobs := b0 &&& USE_COBS
    let use_string := b0 &&& USE_STRING
    let num_cusps := b0 &&& CUSP_MASK
    if use_string ≠ 0 then
      some ⟨true, none, rest⟩
    else
      some ⟨false,
            if use_cobs ≠ 0 then some (rest.take (4 * num_cusps)) else none,
            rest.drop (4 * num_cusps)⟩

/-- A row of a census table as read by `OneCensusManifold`: the `name`,
`triangulation` and `perm` columns. -/
structure CensusRow where
  name : String
  tri : List Nat
  perm : Option Nat
deriving DecidableEq, Repr

/-- The Python exceptions the single-name lookup can raise:
`ValueError` for an ambiguous name, `KeyError` for a missing name,
`NameError` when the table list is empty (the loop variable `rows` is never
bound), `IndexError` when a stored blob is empty (`buf[0]`). -/
inductive LookupError where
  | ambiguous
  | notFound
  | nameErr
  | indexErr
deriving DecidableEq, Repr

/-- The raw payload tuple `(use_string, cobs, perm, triangulation_data)`
returned by `OneCensusManifold.__call__`; `use_string` is the masked header
integer exactly as returned, `cobs` is the result of the external
`decode_matrices` (type parameter `γ`). -/
structure RawPayload (γ : Type) where
  use_string : Nat
  cobs : Option γ
  perm : Option (List Nat)
  body : List Nat
deriving DecidableEq, Repr

/-- The query `select triangulation, perm from T where name='%s'` followed by
`fetchmany(2)`: all rows of the table whose name matches, truncated to two. -/
def censusQuery (name : String) (t : List CensusRow) : List CensusRow :=
  (t.filter fun r => r.name = name).take 2

/-- The table loop of `OneCensusManifold.__call__` (database.py lines
348-357): query each table in order; more than one row raises `ValueError`;
exactly one row stops the loop; if the last queried table had no row, raise
`KeyError`.  With no tables at all, the variable `rows` is unbound and the
final length test raises `NameError`. -/
def lookupLoop (name : String) : List (List CensusRow) → Except LookupError CensusRow
  | [] => .error .nameErr
  | t :: rest =>
    let rows := censusQuery name t
    if 1 < rows.length then .error .ambiguous
    else
      match rows with
      | [r] => .ok r
      | _ => match rest with
             | [] => .error .notFound
             | _ :: _ => lookupLoop name rest

/-- The decode step of `OneCensusManifold.__call__` (database.py lines
358-374) applied to the selected row: header bits as in the factory, body and
matrix bytes at the same offsets, and the packed permutation unpacked into
`num_cusps` four-bit fields when the `perm` column is present and nonzero. -/
def decodePayload {γ : Type} (dm : List Nat → γ) (r : CensusRow) :
    Except LookupError (RawPayload γ) :=
  match r.tri with
  | [] => .error .indexErr
  | b0 :: rest =>
    let use_cobs := b0 &&& USE_COBS
    let use_string := b0 &&& USE_STRING
    let num_cusps := b0 &&& CUSP_MASK
    let cobsBody : Option γ × List Nat :=
      if use_string ≠ 0 then (none, rest)
      else (if use_cobs ≠ 0 then some (dm (rest.take (4 * num_cusps))) else none,
            rest.drop (4 * num_cusps))
    let perm : Option (List Nat) :=
      match r.perm with
      | none => none
      | some p =>
        if p = 0 then none
        else some ((List.range num_cusps).map fun n => (p >>> (4 * n)) &&& 0xf)
    .ok ⟨use_string, cobsBody.1, perm, cobsBody.2⟩

/-- `OneCensusManifold.__call__`: run the table loop, then decode the unique
row found. -/
def oneCensusManifold {γ : Type} (dm : List Nat → γ)
    (tables : List (List CensusRow)) (name : String) :
    Except LookupError (RawPayload γ) :=
  match lookupLoop name tables with
  | .error e => .error e
  | .ok r => decodePayload dm r

/-! ## Slicing (`ManifoldTable.__getitem__`, database.py lines 150-195)

A table is modelled as a list of rows in `id` order: the row at position `j`
has `id = j + 1` (the spec's gapless 1-indexed `id` column).  An active
filter is an optional boolean predicate; `_length` is the filtered count. -/

/-- Python truthiness of an `int`-or-`None` slice bound: `None` and `0` are
falsy. -/
def intTruthy : Option Int → Bool
  | none => false
  | some v => decide (v ≠ 0)

/-- `if bound and bound < 0: bound = length + bound` — negative bounds are
resolved against the filtered length.  (A bound of `0` is falsy but also not
negative, so the truthiness test never changes the outcome here.) -/
def resolveBound (len : Int) : Option Int → Option Int
  | none => none
  | some v => if v < 0 then some (len + v) else some v

/-- SQLite `LIMIT n` semantics: a negative limit imposes no bound. -/
def sqliteLimit {α : Type} (n : Int) (l : List α) : List α :=
  if n < 0 then l else l.take n.toNat

/-- `cursor.fetchmany(s)` discards the first `s` rows when `s > 0`; for a
negative `s` the stop condition `++counter == maxrows` of the sqlite3 cursor
never fires, so the call consumes every remaining row. -/
def fetchmanyDiscard {α : Type} (s : Int) (l : List α) : List α :=
  if 0 < s then l.drop s.toNat else []

/-- The active filter of a table applied to its rows (no filter: all rows). -/
def filteredRows {α : Type} (filt : Option (α → Bool)) (rows : List α) : List α :=
  match filt with
  | none => rows
  | some f => rows.filter f

/-- Ordinal slicing, database.py lines 169-192.  After negative-bound
resolution against `self._length`:
with no filter the query is `where id >= start+1` plus `limit (stop-start)`
when `stop` is truthy; with a filter the query is the filter plus
`limit stop` when `stop` is truthy, and the first `start` rows are discarded
through `fetchmany` when `start` is truthy. -/
def ordinalSlice {α : Type} (filt : Option (α → Bool)) (rows : List α)
    (start stop : Option Int) : List α :=
  let len : Int := (filteredRows filt rows).length
  let start := resolveBound len start
  let stop := resolveBound len stop
  match filt with
  | none =>
    let s : Int := start.getD 0
    let afterId := rows.drop s.toNat
    if intTruthy stop then sqliteLimit (stop.getD 0 - s) afterId else afterId
  | some f =>
    let fr := rows.filter f
    let limited := if intTruthy stop then sqliteLimit (stop.getD 0) fr else fr
    if intTruthy start then fetchmanyDiscard (start.getD 0) limited else limited

/-- Python truthiness of a `float`-or-`None` slice bound. -/
def floatTruthy : Option ℚ → Bool
  | none => false
  | some v => decide (v ≠ 0)

/-- Round-half-even on the rationals, the rounding used when a Python float
is rendered with `'%f'`. -/
def roundHalfEven (q : ℚ) : ℤ :=
  if Int.fract q < 1 / 2 then ⌊q⌋
  else if 1 / 2 < Int.fract q then ⌊q⌋ + 1
  else if ⌊q⌋ % 2 = 0 then ⌊q⌋ else ⌊q⌋ + 1

/-- `'%f' % b`: the bound actually written into the SQL text, rounded to six
decimal places. -/
def render6 (q : ℚ) : ℚ :=
  (roundHalfEven (q * 1000000) : ℚ) / 1000000

/-- Volume slicing, database.py lines 155-168: one `where` clause joining the
active filter, `volume >= %f % start` when `start` is truthy and
`volume < %f % stop` when `stop` is truthy, with no `order by`. -/
def volumeSlice {α : Type} (vol : α → ℚ) (filt : Option (α → Bool))
    (rows : List α) (start stop : Option ℚ) : List α :=
  rows.filter fun r =>
    (match filt with | none => true | some f => f r)
    && (if floatTruthy start then decide (render6 (start.getD 0) ≤ vol r) else true)
    && (if floatTruthy stop then decide (vol r < render6 (stop.getD 0)) else true)

/-- A slice bound as the duck-typed checks of `__getitem__` see it:
`None`, an `int`, or a `float`. -/
inductive PyB where
  | pnone
  | pint (v : Int)
  | pfloat (q : ℚ)
deriving DecidableEq, Repr

/-- `is_float_or_none`. -/
def isFloatOrNone : PyB → Bool
  | .pint _ => false
  | _ => true

/-- `is_int_or_none`. -/
def isIntOrNone : PyB → Bool
  | .pfloat _ => false
  | _ => true

/-- The integer value of a bound on the ordinal path. -/
def pybInt : PyB → Option Int
  | .pint v => some v
  | _ => none

/-- The rational value of a bound on the volume path. -/
def pybFloat : PyB → Option ℚ
  | .pfloat q => some q
  | _ => none

/-- The two `IndexError`s a slice key can raise. -/
inductive SliceErr where
  | unsupportedStep
  | invalidIndexType
deriving DecidableEq, Repr

/-- Python truthiness of `index.step`. -/
def stepTruthy : Option Int → Bool
  | none => false
  | some v => decide (v ≠ 0)

/-- The slice branch of `ManifoldTable.__getitem__` (database.py lines
151-195): `if index.step: raise`; then dispatch on the bound types, float
pairs first, then int pairs, otherwise `IndexError`. -/
def getitemSlice {α : Type} (vol : α → ℚ) (filt : Option (α → Bool))
    (rows : List α) (start stop : PyB) (step : Option Int) :
    Except SliceErr (List α) :=
  if stepTruthy step then .error .unsupportedStep
  else if isFloatOrNone start && isFloatOrNone stop then
    .ok (volumeSlice vol filt rows (pybFloat start) (pybFloat stop))
  else if isIntOrNone start && isIntOrNone stop then
    .ok (ordinalSlice filt rows (pybInt start) (pybInt stop))
  else .error .invalidIndexType

/-! ## The `identify` protocol (`ManifoldTable.identify`, database.py lines
276-316)

The query manifold is an opaque state of type `Q` acted on by the external
capabilities; stored manifolds (rows materialized by `find`) have type `S`.
An external isometry test may raise `RuntimeError`, modelled as
`Except.error ()`. -/

/-- The three values `identify` can return: the matching stored manifold,
`False` (no hash match), or `None` (inconclusive). -/
inductive IdentifyResult (S : Type) where
  | found (N : S)
  | nonMember
  | inconclusive
deriving DecidableEq, Repr

/-- The body of the `try` in the candidate loop: with `extends_to_link`
false the plain test `mfld.is_isometric_to(N)`; with it true,
`True in [i.extends_to_link() for i in mfld.is_isometric_to(N, True)]`.
A `RuntimeError` anywhere in the body is the `.error` case. -/
def isoCheck {Q S : Type} (ext : Bool) (isoT : Q → S → Except Unit Bool)
    (isoTL : Q → S → Except Unit (List Bool)) (q : Q) (N : S) :
    Except Unit Bool :=
  if ext then (isoTL q N).map (fun l => l.contains true) else isoT q N

/-- The candidate loop (database.py lines 296-306): return the first sibling
whose check succeeds with `True`; a `False` result or a caught
`RuntimeError` moves on to the next sibling. -/
def isoPass {Q S : Type} (check : Q → S → Except Unit Bool) (q : Q) :
    List S → Option S
  | [] => none
  | N :: rest =>
    match check q N with
    | .ok true => some N
    | _ => isoPass check q rest

/-- The equality fallback (database.py lines 310-314) with the evolving
query state threaded through: each round compares the current representative
against every sibling in order; on no match the representative is
randomized and the next round runs.  Returns the match (if any) and the
final state of the private copy. -/
def eqFallbackSt {Q S : Type} (sibs : List S) (eq : Q → S → Bool)
    (rnd : Q → Q) : Nat → Q → Option S × Q
  | 0, q => (none, q)
  | n + 1, q =>
    match sibs.find? (eq q) with
    | some N => (some N, q)
    | none => eqFallbackSt sibs eq rnd n (rnd q)

/-- `ManifoldTable.identify` after `mfld = mfld.copy()`, acting on the state
of the private copy (returned as the second component): empty sibling list
returns `False`; otherwise the isometry loop; otherwise, when every cusp of
the copy is complete, the 100-round equality fallback; otherwise `None`. -/
def identifySt {Q S : Type} (ext : Bool) (isoT : Q → S → Except Unit Bool)
    (isoTL : Q → S → Except Unit (List Bool)) (eq : Q → S → Bool)
    (rnd : Q → Q) (complete : Q → Bool) (sibs : List S) (q : Q) :
    IdentifyResult S × Q :=
  if sibs.isEmpty then (.nonMember, q)
  else
    match isoPass (isoCheck ext isoT isoTL) q sibs with
    | some N => (.found N, q)
    | none =>
      if complete q then
        match eqFallbackSt sibs eq rnd 100 q with
        | (some N, q') => (.found N, q')
        | (none, q') => (.inconclusive, q')
      else (.inconclusive, q)

/-- The value `identify` returns. -/
def identify {Q S : Type} (ext : Bool) (isoT : Q → S → Except Unit Bool)
    (isoTL : Q → S → Except Unit (List Bool)) (eq : Q → S → Bool)
    (rnd : Q → Q) (complete : Q → Bool) (sibs : List S) (q : Q) :
    IdentifyResult S :=
  (identifySt ext isoT isoTL eq rnd complete sibs q).1

/-- `ManifoldTable.siblings`: `find("hash = X'%s'" % hash(mfld))` — the rows
whose `hash` column equals the query hash, in table (`id`) order. -/
def siblings {S : Type} (h : S → Nat) (qh : Nat) (rows : List S) : List S :=
  rows.filter fun r => decide (h r = qh)

/-- `identify` with the Python heap made explicit: objects live at list
positions, the caller passes the address `i` of its manifold, and
`mfld = mfld.copy()` allocates a fresh cell at the end of the heap.  Every
subsequent mutation (the `randomize` calls of the fallback) targets that
fresh cell; the returned heap carries the copy's final state. -/
def identifyHeap {Q S : Type} (ext : Bool) (isoT : Q → S → Except Unit Bool)
    (isoTL : Q → S → Except Unit (List Bool)) (eq : Q → S → Bool)
    (rnd : Q → Q) (complete : Q → Bool) (hash : S → Nat) (hashQ : Q → Nat)
    (rows : List S) (heap : List Q) (i : Nat) (hi : i < heap.length) :
    IdentifyResult S × List Q :=
  let q := heap.get ⟨i, hi⟩
  let res := identifySt ext isoT isoTL eq rnd complete
    (siblings hash (hashQ q) rows) q
  (res.1, heap ++ [res.2])

/-- Outcome of a Python call that may raise: a value or an exception. -/
inductive PyOutcome (α : Type) where
  | ok (a : α)
  | exn
deriving DecidableEq, Repr

/-- `ManifoldTable.__contains__` (database.py lines 142-148): run
`identify` and test `M.num_tetrahedra() > 0` inside a bare `try`; any
exception anywhere — including the `AttributeError` raised when `identify`
returned `False` or `None`, which have no `num_tetrahedra` — yields
`False`. -/
def pyContains {S : Type} (idRes : PyOutcome (IdentifyResult S))
    (numTets : S → PyOutcome Int) : Bool :=
  match idRes with
  | .exn => false
  | .ok .nonMember => false
  | .ok .inconclusive => false
  | .ok (.found N) =>
    match numTets N with
    | .exn => false
    | .ok k => decide (0 < k)

/-! ## Helper lemmas -/

theorem isoPass_mem {Q S : Type} {check : Q → S → Except Unit Bool} {q : Q}
    {N : S} : ∀ {sibs : List S}, isoPass check q sibs = some N → N ∈ sibs := by
  intro sibs
  induction sibs with
  | nil => intro h; simp [isoPass] at h
  | cons a l ih =>
    intro h
    unfold isoPass at h
    split at h
    · cases h; exact List.mem_cons_self _ _
    · exact List.mem_cons_of_mem _ (ih h)

theorem eqFallbackSt_fst_mem {Q S : Type} {sibs : List S} {eq : Q → S → Bool}
    {rnd : Q → Q} {N : S} : ∀ {n : Nat} {q : Q},
    (eqFallbackSt sibs eq rnd n q).1 = some N → N ∈ sibs := by
  intro n
  induction n with
  | zero => intro q h; simp [eqFallbackSt] at h
  | succ m ih =>
    intro q h
    rw [eqFallbackSt] at h
    rcases hf : sibs.find? (eq q) with _ | M
    · rw [hf] at h
      exact ih h
    · rw [hf] at h
      cases h
      exact List.mem_of_find?_eq_some hf

theorem eqFallbackSt_fst_none_iff {Q S : Type} (sibs : List S)
    (eq : Q → S → Bool) (rnd : Q → Q) : ∀ (n : Nat) (q : Q),
    (eqFallbackSt sibs eq rnd n q).1 = none ↔
      ∀ k < n, sibs.find? (eq (rnd^[k] q)) = none := by
  intro n
  induction n with
  | zero => intro q; simp [eqFallbackSt]
  | succ m ih =>
    intro q
    rw [eqFallbackSt]
    rcases hf : sibs.find? (eq q) with _ | N
    · simp only [hf]
      rw [ih (rnd q)]
      constructor
      · intro h k hk
        rcases k with _ | k
        · simpa using hf
        · rw [Function.iterate_succ_apply]
          exact h k (Nat.lt_of_succ_lt_succ hk)
      · intro h k hk
        rw [← Function.iterate_succ_apply]
        exact h (k + 1) (Nat.succ_lt_succ hk)
    · simp only [hf]
      constructor
      · intro h; cases h
      · intro h
        have h0 := h 0 (Nat.succ_pos m)
        rw [Function.iterate_zero_apply, hf] at h0
        cases h0

/-- `identify` written as one case tree: empty sibling list, isometry loop,
completeness gate, 100-round fallback. -/
theorem identify_eq {Q S : Type} (ext : Bool) (isoT : Q → S → Except Unit Bool)
    (isoTL : Q → S → Except Unit (List Bool)) (eq : Q → S → Bool)
    (rnd : Q → Q) (complete : Q → Bool) (sibs : List S) (q : Q) :
    identify ext isoT isoTL eq rnd complete sibs q =
      if sibs.isEmpty then .nonMember
      else
        match isoPass (isoCheck ext isoT isoTL) q sibs with
        | some N => .found N
        | none =>
          if complete q then
            match (eqFallbackSt sibs eq rnd 100 q).1 with
            | some N => .found N
            | none => .inconclusive
          else .inconclusive := by
  unfold identify identifySt
  cases hs : sibs.isEmpty with
  | true => simp
  | false =>
    simp only [Bool.false_eq_true, if_false]
    rcases hiso : isoPass (isoCheck ext isoT isoTL) q sibs with _ | N
    · simp only
      rcases hfb : eqFallbackSt sibs eq rnd 100 q with ⟨o, q'⟩
      by_cases hc : complete q = true
      · simp only [hc, if_true, hfb]
        rcases o with _ | N <;> simp
      · have hc' : complete q = false := by
          simpa [Bool.not_eq_true] using hc
        simp [hc']
    · simp

theorem lookupLoop_skip (name : String) (u : List CensusRow)
    (rest : List (List CensusRow)) (hu : censusQuery name u = [])
    (hr : rest ≠ []) :
    lookupLoop name (u :: rest) = lookupLoop name rest := by
  rcases rest with _ | ⟨t, post⟩
  · exact absurd rfl hr
  · conv_lhs => unfold lookupLoop
    rw [hu]
    simp

theorem lookupLoop_all_empty (name : String) :
    ∀ (L : List (List CensusRow)), L ≠ [] →
    (∀ u ∈ L, censusQuery name u = []) →
    lookupLoop name L = .error .notFound := by
  intro L
  induction L with
  | nil => intro h; exact absurd rfl h
  | cons u rest ih =>
    intro _ hall
    rcases rest with _ | ⟨t, post⟩
    · unfold lookupLoop
      rw [hall u (List.mem_cons_self u [])]
      simp
    · rw [lookupLoop_skip name u (t :: post)
        (hall u (List.mem_cons_self u _)) (by simp)]
      exact ih (by simp) fun v hv => hall v (List.mem_cons_of_mem u hv)

theorem identify_nonMember_iff {Q S : Type} (ext : Bool)
    (isoT : Q → S → Except Unit Bool) (isoTL : Q → S → Except Unit (List Bool))
    (eq : Q → S → Bool) (rnd : Q → Q) (complete : Q → Bool)
    (sibs : List S) (q : Q) :
    identify ext isoT isoTL eq rnd complete sibs q = .nonMember ↔ sibs = [] := by
  rw [identify_eq]
  by_cases hs : sibs = []
  · simp [hs]
  · have hs' : sibs.isEmpty = false := by simpa [List.isEmpty_iff] using hs
    simp only [hs', Bool.false_eq_true, if_false]
    rcases hiso : isoPass (isoCheck ext isoT isoTL) q sibs with _ | N
    · by_cases hc : complete q = true
      · rcases hfb : (eqFallbackSt sibs eq rnd 100 q).1 with _ | N <;>
          simp [hc, hfb, hs]
      · have hc' : complete q = false := by simpa [Bool.not_eq_true] using hc
        simp [hc', hs]
    · simp [hs]

theorem identify_inconclusive_iff {Q S : Type} (ext : Bool)
    (isoT : Q → S → Except Unit Bool) (isoTL : Q → S → Except Unit (List Bool))
    (eq : Q → S → Bool) (rnd : Q → Q) (complete : Q → Bool)
    (sibs : List S) (q : Q) :
    identify ext isoT isoTL eq rnd complete sibs q = .inconclusive ↔
      sibs ≠ []
      ∧ isoPass (isoCheck ext isoT isoTL) q sibs = none
      ∧ (complete q = true → (eqFallbackSt sibs eq rnd 100 q).1 = none) := by
  rw [identify_eq]
  by_cases hs : sibs = []
  · simp [hs]
  · have hs' : sibs.isEmpty = false := by simpa [List.isEmpty_iff] using hs
    simp only [hs', Bool.false_eq_true, if_false]
    rcases hiso : isoPass (isoCheck ext isoT isoTL) q sibs with _ | N
    · by_cases hc : complete q = true
      · rcases hfb : (eqFallbackSt sibs eq rnd 100 q).1 with _ | N <;>
          simp [hiso, hc, hfb, hs]
      · have hc' : complete q = false := by simpa [Bool.not_eq_true] using hc
        simp [hiso, hc', hs]
    · simp [hiso, hs]

theorem identify_found_mem {Q S : Type} (ext : Bool)
    (isoT : Q → S → Except Unit Bool) (isoTL : Q → S → Except Unit (List Bool))
    (eq : Q → S → Bool) (rnd : Q → Q) (complete : Q → Bool)
    (sibs : List S) (q : Q) (N : S)
    (hfound : identify ext isoT isoTL eq rnd complete sibs q = .found N) :
    N ∈ sibs := by
  rw [identify_eq] at hfound
  by_cases hs : sibs = []
  · simp [hs] at hfound
  · have hs' : sibs.isEmpty = false := by simpa [List.isEmpty_iff] using hs
    simp only [hs', Bool.false_eq_true, if_false] at hfound
    rcases hiso : isoPass (isoCheck ext isoT isoTL) q sibs with _ | M
    · simp only [hiso] at hfound
      by_cases hc : complete q = true
      · rcases hfb : (eqFallbackSt sibs eq rnd 100 q).1 with _ | M
        · simp [hc, hfb] at hfound
        · have hMN : M = N := by simpa [hc, hfb] using hfound
          exact hMN ▸ eqFallbackSt_fst_mem hfb
      · have hc' : complete q = false := by simpa [Bool.not_eq_true] using hc
        simp [hc'] at hfound
    · simp only [hiso] at hfound
      have hMN : M = N := by simpa using hfound
      exact hMN ▸ isoPass_mem hiso

/-! ## Claims -/

/-- Claim C1, counterexample.  A blob with header byte 1 (`use_string`
clear, `use_cobs` clear, `num_cusps = 1`): the factory hands
`buf[4*num_cusps + 1:] = [50]` to `_from_bytes`, not `blob[1:]` as the
claim states for the `use_cobs`-clear case. -/
theorem C1_counterexample :
    manifold_factory_decode [1, 10, 20, 30, 40, 50]
      = some ⟨false, none, [50]⟩
    ∧ ([50] : List Nat) ≠ [10, 20, 30, 40, 50]
    ∧ 1 &&& USE_STRING = 0 ∧ 1 &&& USE_COBS = 0 := by decide

/-- Claim C1 (amended): for every blob whose header has `use_string`
clear, the triangulation body is `blob[1 + 4*num_cusps:]` whether or not
`use_cobs` is set; when `use_cobs` is set, bytes `[1, 1 + 4*num_cusps)` are
handed to the matrix decoder, and when it is clear no matrix bytes are
produced.  `OneCensusManifold` extracts the body at the same offset. -/
theorem C1_blob_decoding (b0 : Nat) (rest : List Nat)
    (hs : b0 &&& USE_STRING = 0) :
    (b0 &&& USE_COBS ≠ 0 →
      manifold_factory_decode (b0 :: rest)
        = some ⟨false, some (rest.take (4 * (b0 &&& CUSP_MASK))),
                rest.drop (4 * (b0 &&& CUSP_MASK))⟩)
    ∧ (b0 &&& USE_COBS = 0 →
      manifold_factory_decode (b0 :: rest)
        = some ⟨false, none, rest.drop (4 * (b0 &&& CUSP_MASK))⟩)
    ∧ (∀ (γ : Type) (dm : List Nat → γ) (nm : String) (p : Option Nat),
        (decodePayload dm ⟨nm, b0 :: rest, p⟩).map RawPayload.body
          = .ok (rest.drop (4 * (b0 &&& CUSP_MASK)))) := by
  refine ⟨fun hc => ?_, fun hc => ?_, fun γ dm nm p => ?_⟩
  · simp [manifold_factory_decode, hs, hc]
  · simp [manifold_factory_decode, hs, hc]
  · simp [decodePayload, hs, Except.map]

/-- Claim C1 witness: concrete evaluation of the amended statement on a
blob with `use_cobs` set and one cusp. -/
theorem C1_blob_decoding_witness :
    manifold_factory_decode [129, 1, 2, 3, 4, 9]
      = some ⟨false, some [1, 2, 3, 4], [9]⟩ := by
  have h := (C1_blob_decoding 129 [1, 2, 3, 4, 9] (by decide)).1 (by decide)
  simpa using h

/-- Claim C2: `identify` returns the non-member outcome (`False`) exactly
when no table row shares the query's hash value; it returns the
inconclusive outcome (`None`) exactly when same-hash candidates existed but
neither the isometry loop nor the (completeness-gated) equality fallback
confirmed one; the two outcomes are distinct values; and a confirmed match
is reported only by returning one of the stored sibling rows itself. -/
theorem C2_identify_outcomes {Q S : Type} (ext : Bool)
    (isoT : Q → S → Except Unit Bool) (isoTL : Q → S → Except Unit (List Bool))
    (eq : Q → S → Bool) (rnd : Q → Q) (complete : Q → Bool)
    (hash : S → Nat) (qh : Nat) (rows : List S) (q : Q) :
    (identify ext isoT isoTL eq rnd complete (siblings hash qh rows) q
        = .nonMember ↔ ∀ r ∈ rows, hash r ≠ qh)
    ∧ (identify ext isoT isoTL eq rnd complete (siblings hash qh rows) q
        = .inconclusive ↔
          siblings hash qh rows ≠ []
          ∧ isoPass (isoCheck ext isoT isoTL) q (siblings hash qh rows) = none
          ∧ (complete q = true →
              (eqFallbackSt (siblings hash qh rows) eq rnd 100 q).1 = none))
    ∧ (∀ N, identify ext isoT isoTL eq rnd complete (siblings hash qh rows) q
        = .found N → N ∈ siblings hash qh rows)
    ∧ (IdentifyResult.nonMember (S := S)) ≠ .inconclusive := by
  refine ⟨?_, identify_inconclusive_iff ext isoT isoTL eq rnd complete _ q,
    fun N => identify_found_mem ext isoT isoTL eq rnd complete _ q N,
    fun hcon => IdentifyResult.noConfusion hcon⟩
  rw [identify_nonMember_iff]
  simp [siblings, List.filter_eq_nil_iff]

/-- Claim C2 witness: a query hashing to a value shared by no row of a
concrete three-row table is reported as a non-member. -/
theorem C2_identify_outcomes_witness :
    identify false (fun _ _ => Except.error ()) (fun _ _ => Except.error ())
      (fun _ _ => false) id (fun _ => true)
      (siblings (fun r => r) 5 ([1, 2, 3] : List Nat)) (0 : Nat) = .nonMember
    ↔ ∀ r ∈ ([1, 2, 3] : List Nat), r ≠ 5 :=
  (C2_identify_outcomes false (fun _ _ => Except.error ())
    (fun _ _ => Except.error ()) (fun _ _ => false) id (fun _ => true)
    (fun r => r) 5 [1, 2, 3] 0).1

/-- Claim C3: the equality fallback is consulted only when every cusp of
the query copy is complete (with an incomplete cusp the outcome does not
depend on the equality test or the randomizer at all); under the fallback
precondition the inconclusive outcome is reached exactly when all 100
rounds — comparing against each sibling at the k-fold randomization of the
query, k < 100, a fixed cap — fail; and every call ends in one of the three
outcomes. -/
theorem C3_fallback_discipline {Q S : Type} (ext : Bool)
    (isoT : Q → S → Except Unit Bool) (isoTL : Q → S → Except Unit (List Bool))
    (eq eq2 : Q → S → Bool) (rnd rnd2 : Q → Q) (complete : Q → Bool)
    (sibs : List S) (q : Q) :
    (complete q = false →
      identify ext isoT isoTL eq rnd complete sibs q
        = identify ext isoT isoTL eq2 rnd2 complete sibs q)
    ∧ (complete q = true → sibs ≠ [] →
        isoPass (isoCheck ext isoT isoTL) q sibs = none →
        (identify ext isoT isoTL eq rnd complete sibs q = .inconclusive
          ↔ ∀ k < 100, sibs.find? (eq (rnd^[k] q)) = none))
    ∧ ((∃ N, identify ext isoT isoTL eq rnd complete sibs q = .found N)
        ∨ identify ext isoT isoTL eq rnd complete sibs q = .nonMember
        ∨ identify ext isoT isoTL eq rnd complete sibs q = .inconclusive) := by
  refine ⟨fun hc => ?_, fun hc hs hiso => ?_, ?_⟩
  · rw [identify_eq, identify_eq]
    simp [hc]
  · have hs' : sibs.isEmpty = false := by simpa [List.isEmpty_iff] using hs
    rw [identify_eq]
    simp only [hs', Bool.false_eq_true, if_false, hiso, hc, if_true]
    rw [← eqFallbackSt_fst_none_iff sibs eq rnd 100 q]
    rcases hfb : (eqFallbackSt sibs eq rnd 100 q).1 with _ | N <;> simp [hfb]
  · cases hid : identify ext isoT isoTL eq rnd complete sibs q with
    | found N => exact Or.inl ⟨N, rfl⟩
    | nonMember => exact Or.inr (Or.inl rfl)
    | inconclusive => exact Or.inr (Or.inr rfl)

/-- Claim C3 witness: with one sibling that the query state never equals in
100 randomization rounds, an isometry test that always raises, and every
cusp complete, the call is inconclusive. -/
theorem C3_fallback_discipline_witness :
    identify false (fun _ _ => Except.error ()) (fun _ _ => Except.error ())
      (fun a N => a == N) Nat.succ (fun _ => true) ([200] : List Nat) 0
      = .inconclusive
    ↔ ∀ k < 100, ([200] : List Nat).find? ((fun a N => a == N)
        (Nat.succ^[k] 0)) = none :=
  (C3_fallback_discipline false (fun _ _ => Except.error ())
    (fun _ _ => Except.error ()) (fun a N => a == N) (fun a N => a == N)
    Nat.succ Nat.succ (fun _ => true) [200] 0).2.1 rfl (by simp) rfl

/-- Claim C7: a `RuntimeError` from the isometry check for one sibling is
swallowed — the candidate loop continues on the remaining siblings exactly
as if the failing candidate were absent — and the surrounding `identify`
call still ends in an ordinary outcome (here necessarily a match or the
inconclusive value, the sibling list being nonempty), never an escalated
error. -/
theorem C7_runtime_error_skipped {Q S : Type} (ext : Bool)
    (isoT : Q → S → Except Unit Bool) (isoTL : Q → S → Except Unit (List Bool))
    (eq : Q → S → Bool) (rnd : Q → Q) (complete : Q → Bool)
    (q : Q) (N : S) (rest : List S)
    (herr : isoCheck ext isoT isoTL q N = .error ()) :
    isoPass (isoCheck ext isoT isoTL) q (N :: rest)
      = isoPass (isoCheck ext isoT isoTL) q rest
    ∧ ((∃ M, identify ext isoT isoTL eq rnd complete (N :: rest) q = .found M)
       ∨ identify ext isoT isoTL eq rnd complete (N :: rest) q
          = .inconclusive) := by
  have hskip : isoPass (isoCheck ext isoT isoTL) q (N :: rest)
      = isoPass (isoCheck ext isoT isoTL) q rest := by
    conv_lhs => unfold isoPass
    rw [herr]
  refine ⟨hskip, ?_⟩
  rw [identify_eq]
  simp only [List.isEmpty_cons, Bool.false_eq_true, if_false]
  rcases hiso : isoPass (isoCheck ext isoT isoTL) q (N :: rest) with _ | M
  · simp only [hiso]
    by_cases hc : complete q = true
    · simp only [hc, if_true]
      rcases hfb : (eqFallbackSt (N :: rest) eq rnd 100 q).1 with _ | M
      · simp [hfb]
      · exact Or.inl ⟨M, by simp [hfb]⟩
    · have hc' : complete q = false := by simpa [Bool.not_eq_true] using hc
      simp [hc']
  · simp only [hiso]
    exact Or.inl ⟨M, rfl⟩

/-- Claim C7 witness: an always-raising isometry test on a one-sibling list
behaves as the empty candidate loop. -/
theorem C7_runtime_error_skipped_witness :
    isoPass (isoCheck false (fun _ _ => Except.error ())
        (fun _ _ => Except.error ())) (0 : Nat) ([7] : List Nat)
      = isoPass (isoCheck false (fun _ _ => Except.error ())
        (fun _ _ => Except.error ())) 0 [] :=
  (C7_runtime_error_skipped false (fun _ _ => Except.error ())
    (fun _ _ => Except.error ()) (fun _ _ => false) id (fun _ => true)
    0 7 [] rfl).1

/-- Claim C5: `OneCensusManifold.__call__` queries the candidate tables in
order (two rows at most per table); a queried table with more than one
matching row raises the ambiguity error; the first table with exactly one
matching row stops the search and its row is decoded to the raw payload
tuple; if every table has no matching row the lookup fails with the
not-found error. -/
theorem C5_single_lookup {γ : Type} (dm : List Nat → γ) (name : String)
    (pre post : List (List CensusRow)) (t : List CensusRow)
    (hpre : ∀ u ∈ pre, u.filter (fun r => r.name = name) = []) :
    (2 ≤ (t.filter (fun r => r.name = name)).length →
      oneCensusManifold dm (pre ++ t :: post) name = .error .ambiguous)
    ∧ (∀ r0, t.filter (fun r => r.name = name) = [r0] →
      oneCensusManifold dm (pre ++ t :: post) name = decodePayload dm r0)
    ∧ ((∀ u ∈ pre ++ t :: post, u.filter (fun r => r.name = name) = []) →
      oneCensusManifold dm (pre ++ t :: post) name = .error .notFound) := by
  have hskip : lookupLoop name (pre ++ t :: post) = lookupLoop name (t :: post) := by
    induction pre with
    | nil => rfl
    | cons u rest ih =>
      rw [List.cons_append,
        lookupLoop_skip name u (rest ++ t :: post)
          (by simpa [censusQuery] using hpre u (List.mem_cons_self u rest))
          (by simp)]
      exact ih fun v hv => hpre v (List.mem_cons_of_mem u hv)
  refine ⟨fun h2 => ?_, fun r0 hr0 => ?_, fun hall => ?_⟩
  · unfold oneCensusManifold
    rw [hskip]
    unfold lookupLoop
    have : 1 < (censusQuery name t).length := by
      simp only [censusQuery, List.length_take]
      omega
    rw [if_pos this]
  · unfold oneCensusManifold
    rw [hskip]
    unfold lookupLoop
    have hq : censusQuery name t = [r0] := by
      simp [censusQuery, hr0]
    rw [hq]
    simp
  · unfold oneCensusManifold
    rw [lookupLoop_all_empty name (pre ++ t :: post) (by simp)
      fun u hu => by simpa [censusQuery] using hall u hu]

/-- Claim C5 witness: a name present with one row in the second of two
tables (the first empty) returns that row's decoded payload. -/
theorem C5_single_lookup_witness :
    oneCensusManifold (fun b => b) ([[]] ++ [⟨"a", [64, 1, 2], none⟩] :: []) "a"
      = decodePayload (fun b => b) ⟨"a", [64, 1, 2], none⟩ := by
  have h := (C5_single_lookup (fun b => b) "a" [[]] []
    [⟨"a", [64, 1, 2], none⟩] (by simp)).2.1 ⟨"a", [64, 1, 2], none⟩ (by decide)
  exact h

/-- Claim C9: `identify` works on a private copy of the query — the call
allocates a fresh heap cell for `mfld.copy()` and every mutation targets
that cell, so every pre-existing heap cell (in particular the caller's
manifold at address `i`) is unchanged, and the outcome is the pure
`identify` of the caller's value. -/
theorem C9_query_not_mutated {Q S : Type} (ext : Bool)
    (isoT : Q → S → Except Unit Bool) (isoTL : Q → S → Except Unit (List Bool))
    (eq : Q → S → Bool) (rnd : Q → Q) (complete : Q → Bool)
    (hash : S → Nat) (hashQ : Q → Nat) (rows : List S)
    (heap : List Q) (i : Nat) (hi : i < heap.length) :
    ((identifyHeap ext isoT isoTL eq rnd complete hash hashQ rows
        heap i hi).2.take heap.length = heap)
    ∧ (∀ j, j < heap.length →
        (identifyHeap ext isoT isoTL eq rnd complete hash hashQ rows
          heap i hi).2.get? j = heap.get? j)
    ∧ ((identifyHeap ext isoT isoTL eq rnd complete hash hashQ rows
        heap i hi).1
        = identify ext isoT isoTL eq rnd complete
            (siblings hash (hashQ (heap.get ⟨i, hi⟩)) rows)
            (heap.get ⟨i, hi⟩)) := by
  refine ⟨?_, ?_, rfl⟩
  · exact List.take_left heap _
  · intro j hj
    simp [identifyHeap, List.get?_eq_getElem?, List.getElem?_append_left hj]

/-- Claim C9 witness: a one-cell heap is intact after the call. -/
theorem C9_query_not_mutated_witness :
    (identifyHeap false (fun _ _ => Except.error ())
      (fun _ _ => Except.error ()) (fun _ _ => false) id (fun _ => true)
      (fun r => r) (fun a => a) ([] : List Nat) ([5] : List Nat) 0
      (by decide)).2.take 1 = [5] :=
  (C9_query_not_mutated false (fun _ _ => Except.error ())
    (fun _ _ => Except.error ()) (fun _ _ => false) id (fun _ => true)
    (fun r => r) (fun a => a) [] [5] 0 (by decide)).1

/-- Claim C10: `__contains__` is a total boolean — it returns `True`
exactly when the identification step returned a stored object whose
tetrahedron count is positive, and `False` when identification returned
the non-member or inconclusive value (whose missing `num_tetrahedra`
attribute raises, caught by the bare `except`), when the count is
nonpositive, or when any exception was raised. -/
theorem C10_contains_protocol {S : Type}
    (idRes : PyOutcome (IdentifyResult S)) (numTets : S → PyOutcome Int) :
    (pyContains idRes numTets = true ↔
       ∃ N k, idRes = .ok (.found N) ∧ numTets N = .ok k ∧ 0 < k)
    ∧ pyContains (PyOutcome.exn (α := IdentifyResult S)) numTets = false
    ∧ pyContains (.ok (.nonMember (S := S))) numTets = false
    ∧ pyContains (.ok (.inconclusive (S := S))) numTets = false
    ∧ (pyContains idRes numTets = true ∨ pyContains idRes numTets = false) := by
  refine ⟨⟨?_, ?_⟩, rfl, rfl, rfl,
    by cases h : pyContains idRes numTets <;> simp⟩
  · intro h
    rcases idRes with a | _
    · rcases a with N | _ | _
      · rcases htet : numTets N with k | _
        · refine ⟨N, k, rfl, htet, ?_⟩
          simpa [pyContains, htet] using h
        · simp [pyContains, htet] at h
      · simp [pyContains] at h
      · simp [pyContains] at h
    · simp [pyContains] at h
  · rintro ⟨N, k, hres, htet, hk⟩
    subst hres
    simp [pyContains, htet, hk]

/-- Claim C10 witness: a found object with three tetrahedra yields `True`. -/
theorem C10_contains_protocol_witness :
    pyContains (PyOutcome.ok (IdentifyResult.found (5 : Nat)))
      (fun _ => PyOutcome.ok 3) = true
    ↔ ∃ N k, (PyOutcome.ok (IdentifyResult.found (5 : Nat)))
        = PyOutcome.ok (.found N)
        ∧ (fun _ => PyOutcome.ok (3 : Int)) N = .ok k ∧ 0 < k :=
  (C10_contains_protocol (PyOutcome.ok (IdentifyResult.found (5 : Nat)))
    (fun _ => PyOutcome.ok 3)).1

/-- Claim C4, counterexample.  On an unfiltered three-row table the slice
`[2:1]` has negative resolved length, yet the generated SQL carries
`limit 1 - 2 = -1`, which SQLite treats as no bound: every row with
`id >= 3` is returned, not an empty sequence. -/
theorem C4_counterexample :
    ordinalSlice (α := Nat) none [10, 20, 30] (some 2) (some 1) = [30]
    ∧ ([30] : List Nat) ≠ [] := by decide

/-- Claim C4 (amended): zero- and negative-length ordinal slices never
raise, but are empty only in some cases — on the filtered path whenever
`0 < stop ≤ start`, and on the unfiltered path when `stop = start > 0`.
On the unfiltered path a positive `stop` strictly below `start` makes the
SQL limit negative, imposing no bound, and all rows from position `start`
on are returned; a `stop` of `0` is falsy, the limit clause is omitted,
and likewise all rows from position `start` on are returned. -/
theorem C4_short_slices {α : Type} (f : α → Bool) (rows : List α)
    (s v : Int) (hs : 0 ≤ s) :
    (0 < v → v ≤ s → ordinalSlice (some f) rows (some s) (some v) = [])
    ∧ (0 < s → ordinalSlice (α := α) none rows (some s) (some s) = [])
    ∧ (0 < v → v < s →
        ordinalSlice (α := α) none rows (some s) (some v)
          = rows.drop s.toNat)
    ∧ (ordinalSlice (α := α) none rows (some s) (some 0)
        = rows.drop s.toNat) := by
  have hs0 : ¬ s < 0 := by omega
  refine ⟨fun hv hvs => ?_, fun hsp => ?_, fun hv hvs => ?_, ?_⟩
  · have hv0 : ¬ v < 0 := by omega
    have hvne : v ≠ 0 := by omega
    have hsne : s ≠ 0 := by omega
    simp only [ordinalSlice, resolveBound, if_neg hv0, if_neg hs0]
    simp only [intTruthy, hvne, hsne, Option.getD_some, ne_eq,
      not_false_eq_true, decide_True, if_true]
    simp only [sqliteLimit, if_neg hv0, fetchmanyDiscard,
      if_pos (lt_of_lt_of_le hv hvs)]
    apply List.drop_eq_nil_of_le
    calc ((rows.filter f).take v.toNat).length ≤ v.toNat := by
          rw [List.length_take]; omega
      _ ≤ s.toNat := Int.toNat_le_toNat hvs
  · have hsne : s ≠ 0 := by omega
    simp only [ordinalSlice, resolveBound, if_neg hs0]
    simp only [intTruthy, hsne, Option.getD_some, ne_eq,
      not_false_eq_true, decide_True, if_true]
    simp [sqliteLimit]
  · have hv0 : ¬ v < 0 := by omega
    have hvne : v ≠ 0 := by omega
    simp only [ordinalSlice, resolveBound, if_neg hv0, if_neg hs0]
    simp only [intTruthy, hvne, Option.getD_some, ne_eq,
      not_false_eq_true, decide_True, if_true]
    simp only [sqliteLimit, if_pos (by omega : v - s < 0), ite_self]
  · simp only [ordinalSlice, resolveBound, if_neg hs0, lt_irrefl, if_false]
    simp [intTruthy]

/-- Claim C4 witness: the unfiltered zero-length slice `[2:2]` on a
three-row table is empty. -/
theorem C4_short_slices_witness :
    ordinalSlice (α := Nat) none [10, 20, 30] (some 2) (some 2) = [] :=
  (C4_short_slices (fun _ => true) [10, 20, 30] 2 2 (by decide)).2.1
    (by decide)

/-- Claim C6, counterexample.  A `start` bound of `0.0` is falsy, so the
`volume >= start` condition is never added to the query: a row with
volume `-1` is returned even though the claim requires
`volume >= start = 0`. -/
theorem C6_counterexample :
    volumeSlice (fun q => q) none [(-1 : ℚ)] (some 0) none = [(-1 : ℚ)]
    ∧ ¬ ((0 : ℚ) ≤ (-1 : ℚ)) := by
  constructor
  · rfl
  · norm_num

/-- Claim C6 (amended): every row returned by a volume slice passes the
active filter, satisfies `volume >= start` rendered at six decimal places
when `start` is given and nonzero, and `volume < stop` rendered at six
decimal places when `stop` is given and nonzero — a bound equal to `0.0`
is falsy and imposes no constraint; omitting a bound removes only that
side's constraint, and the result is a subsequence of the source rows
(the operation imposes no ordering of its own). -/
theorem C6_volume_slice {α : Type} (vol : α → ℚ) (filt : Option (α → Bool))
    (rows : List α) (start stop : Option ℚ) :
    (∀ r, r ∈ volumeSlice vol filt rows start stop ↔
        r ∈ rows
        ∧ (∀ f, filt = some f → f r = true)
        ∧ (∀ a, start = some a → a ≠ 0 → render6 a ≤ vol r)
        ∧ (∀ b, stop = some b → b ≠ 0 → vol r < render6 b))
    ∧ (volumeSlice vol filt rows start stop).Sublist rows := by
  refine ⟨fun r => ?_, List.filter_sublist _⟩
  rw [volumeSlice, List.mem_filter]
  constructor
  · rintro ⟨hmem, hpred⟩
    simp only [Bool.and_eq_true] at hpred
    obtain ⟨⟨hf, hstart⟩, hstop⟩ := hpred
    refine ⟨hmem, ?_, ?_, ?_⟩
    · intro g hgeq
      subst hgeq
      exact hf
    · intro a haeq hane
      subst haeq
      have ht : floatTruthy (some a) = true := by simp [floatTruthy, hane]
      simpa [ht] using hstart
    · intro b hbeq hbne
      subst hbeq
      have ht : floatTruthy (some b) = true := by simp [floatTruthy, hbne]
      simpa [ht] using hstop
  · rintro ⟨hmem, hf, hstart, hstop⟩
    refine ⟨hmem, ?_⟩
    simp only [Bool.and_eq_true]
    refine ⟨⟨?_, ?_⟩, ?_⟩
    · cases filt with
      | none => rfl
      | some g => exact hf g rfl
    · cases start with
      | none => rfl
      | some a =>
        by_cases ha : a = 0
        · simp [floatTruthy, ha]
        · simp [floatTruthy, ha, hstart a rfl ha]
    · cases stop with
      | none => rfl
      | some b =>
        by_cases hb : b = 0
        · simp [floatTruthy, hb]
        · simp [floatTruthy, hb, hstop b rfl hb]

/-- Claim C6 witness: the membership characterization evaluated on a
one-row table with a nonzero lower bound. -/
theorem C6_volume_slice_witness :
    (1 : ℚ) ∈ volumeSlice (fun q => q) none [(1 : ℚ)] (some (1 / 2)) none ↔
      (1 : ℚ) ∈ [(1 : ℚ)]
      ∧ (∀ f, (none : Option (ℚ → Bool)) = some f → f 1 = true)
      ∧ (∀ a, (some (1 / 2 : ℚ)) = some a → a ≠ 0 → render6 a ≤ (1 : ℚ))
      ∧ (∀ b, (none : Option ℚ) = some b → b ≠ 0 → (1 : ℚ) < render6 b) :=
  (C6_volume_slice (fun q => q) none [(1 : ℚ)] (some (1 / 2)) none).1 1

/-- Claim C8, counterexample.  `slice(None, None, 0)` carries a step value
different from the default `None`, but `0` is falsy in `if index.step:`,
so the slice is accepted and processed (volume path) instead of raising
the unsupported-slice error. -/
theorem C8_counterexample :
    getitemSlice (fun q => q) none [(1 : ℚ)] .pnone .pnone (some 0)
      = .ok [(1 : ℚ)]
    ∧ (some (0 : Int) ≠ (none : Option Int)) := by
  constructor
  · rfl
  · decide

/-- Claim C8 (amended): a slice key fails with the unsupported-slice error
exactly when its step is truthy — an integer other than `0` (and not
`None`); a slice whose step is `None` or `0` is accepted and processed
exactly as with the default step by the ordinal or volume path. -/
theorem C8_step_gate {α : Type} (vol : α → ℚ) (filt : Option (α → Bool))
    (rows : List α) (start stop : PyB) (step : Option Int) :
    (getitemSlice vol filt rows start stop step = .error .unsupportedStep
      ↔ stepTruthy step = true)
    ∧ (stepTruthy step = false →
        getitemSlice vol filt rows start stop step
          = getitemSlice vol filt rows start stop none) := by
  constructor
  · constructor
    · intro h
      by_cases hstep : stepTruthy step = true
      · exact hstep
      · exfalso
        have hf : stepTruthy step = false := by simpa using hstep
        simp only [getitemSlice, hf, Bool.false_eq_true, if_false] at h
        by_cases h1 : (isFloatOrNone start && isFloatOrNone stop) = true
        · simp [h1] at h
        · by_cases h2 : (isIntOrNone start && isIntOrNone stop) = true
          · simp [h1, h2] at h
          · simp [h1, h2] at h
    · intro h
      simp [getitemSlice, h]
  · intro hf
    simp only [getitemSlice, hf, Bool.false_eq_true, if_false]
    rfl

/-- Claim C8 witness: step `0` is processed exactly as the default step. -/
theorem C8_step_gate_witness :
    getitemSlice (fun q => q) (none : Option (ℚ → Bool)) [(1 : ℚ)]
        .pnone .pnone (some 0)
      = getitemSlice (fun q => q) none [(1 : ℚ)] .pnone .pnone none :=
  (C8_step_gate (fun q => q) none [(1 : ℚ)] .pnone .pnone (some 0)).2 rfl

end SnapPyDB
